import Mathlib

/-!
Verification development for the Image-Synthesis repository.

The repository has two source files: a synthesis client
(src/services/geminiService.ts) that builds a request from a prompt and a
list of encoded images, sends it to a remote generation endpoint and parses
the first candidate of the response, and a UI component (the unnamed React
file) that manages an intake collection of image files with preview
references, encodes files to base64 data, and invokes the client.

The embedding below follows the source line by line.  JavaScript values that
may be `undefined` are modelled as `Option`; JS string truthiness (empty
string is falsy) is modelled explicitly; a thrown exception is `Except.error`
carrying the message of the `Error` object; the remote call is a parameter
(an oracle from requests to either a thrown transport error or a response),
and the list of requests issued is returned alongside the outcome so that
claims about "no network call" are statable.
-/

/-- Truthiness of a JS value that is either `undefined` (`none`) or a string:
the empty string is falsy, every other string is truthy. -/
def truthyStr : Option String → Bool
  | none => false
  | some s => !(s == "")

/-- Result record of geminiService.synthesizeImage: `imageUrl` and `text`
start as `null` and are optionally filled from the response parts. -/
structure SynthesisResult where
  imageUrl : Option String
  text : Option String
deriving Repr, DecidableEq

/-- Input image record of geminiService.synthesizeImage: a MIME type and
base64 data, as produced by the UI layer. -/
structure ImagePart where
  mimeType : String
  data : String
deriving Repr, DecidableEq

/-- Output modalities requested in the generateContent config. -/
inductive Modality where
  | IMAGE
  | TEXT
deriving Repr, DecidableEq

/-- Request part sent to the endpoint: either an inlineData object built from
one input image, or the single text part holding the prompt. -/
inductive ReqPart where
  | inlineData (mimeType : String) (data : String)
  | text (s : String)
deriving Repr, DecidableEq

/-- Request passed to ai.models.generateContent: the model name, the ordered
parts list, and the responseModalities config. -/
structure GenRequest where
  model : String
  parts : List ReqPart
  responseModalities : List Modality
deriving Repr, DecidableEq

/-- The inlineData object of a response part.  Both fields may be absent in
JS, hence `Option`. -/
structure RespInlineData where
  mimeType : Option String
  data : Option String
deriving Repr, DecidableEq

/-- One part of a response candidate: it may carry an inlineData object
and/or a text string. -/
structure RespPart where
  inlineData : Option RespInlineData
  text : Option String
deriving Repr, DecidableEq

/-- The content object of a candidate, holding the ordered parts list. -/
structure Content where
  parts : List RespPart
deriving Repr, DecidableEq

/-- One candidate of the response. -/
structure Candidate where
  content : Content
deriving Repr, DecidableEq

/-- Response returned by the endpoint: a list of candidates (an absent or
null candidates field is the empty list, which the source guards for with
`response.candidates && response.candidates.length > 0`). -/
structure GenResponse where
  candidates : List Candidate
deriving Repr, DecidableEq

/-- Request construction of synthesizeImage, lines 30-45 of
geminiService.ts: one inlineData part per input image, in order, followed by
one text part holding the prompt, with the fixed model name and both
modalities requested. -/
def buildRequest (prompt : String) (images : List ImagePart) : GenRequest :=
  { model := "gemini-2.5-flash-image-preview"
    parts := images.map (fun image => ReqPart.inlineData image.mimeType image.data)
      ++ [ReqPart.text prompt]
    responseModalities := [Modality.IMAGE, Modality.TEXT] }

/-- Template-literal stringification of a possibly-undefined JS value:
`undefined` interpolates as the string "undefined". -/
def jsInterp : Option String → String
  | none => "undefined"
  | some s => s

/-- Data URL built at line 63 of geminiService.ts from the inlineData of a
response part: `data:<mimeType>;base64,<payload>`. -/
def dataUrlOf (i : RespInlineData) : String :=
  "data:" ++ jsInterp i.mimeType ++ ";base64," ++ jsInterp i.data

/-- Body of the parsing loop, lines 59-67 of geminiService.ts: a part with a
truthy inlineData.data overwrites imageUrl; otherwise a part with truthy
text overwrites text; otherwise the part is skipped. -/
def stepPart (acc : SynthesisResult) (p : RespPart) : SynthesisResult :=
  match p.inlineData with
  | some i =>
      if truthyStr i.data then { acc with imageUrl := some (dataUrlOf i) }
      else if truthyStr p.text then { acc with text := p.text }
      else acc
  | none =>
      if truthyStr p.text then { acc with text := p.text }
      else acc

/-- Response parsing of synthesizeImage, lines 52-68: starting from a result
with both fields null, iterate over the parts of the first candidate when at
least one candidate is present. -/
def parseResponse (resp : GenResponse) : SynthesisResult :=
  match resp.candidates with
  | [] => { imageUrl := none, text := none }
  | c :: _ => c.content.parts.foldl stepPart { imageUrl := none, text := none }

/-- Message of the Error thrown at line 71 when the parsed result has both
fields unset. -/
def emptyResponseMsg : String :=
  "API returned no content. The prompt might have been blocked."

/-- Message of the Error rethrown by the catch block at line 78. -/
def genericFailureMsg : String :=
  "Failed to synthesize image. Please check the console for more details."

/-- Falsiness test used at line 70 (`!result.imageUrl && !result.text`): a
field is falsy when it is null or the empty string. -/
def falsyOpt (o : Option String) : Bool :=
  !truthyStr o

/-- The try block of synthesizeImage, lines 29-74: build the request, await
the remote call (a thrown transport exception propagates), parse the
response, throw the empty-response Error when both fields are falsy,
otherwise return the result.  The second component records the requests
issued to the remote endpoint, in order. -/
def tryBody (prompt : String) (images : List ImagePart)
    (remote : GenRequest → Except String GenResponse) :
    Except String SynthesisResult × List GenRequest :=
  match remote (buildRequest prompt images) with
  | .error e => (.error e, [buildRequest prompt images])
  | .ok resp =>
      if falsyOpt (parseResponse resp).imageUrl && falsyOpt (parseResponse resp).text then
        (.error emptyResponseMsg, [buildRequest prompt images])
      else
        (.ok (parseResponse resp), [buildRequest prompt images])

/-- The full synthesizeImage, lines 28-80: the catch block catches every
error thrown inside the try block (transport exceptions and the
empty-response Error alike), logs it, and rethrows a new Error with the
generic failure message. -/
def synthesizeImage (prompt : String) (images : List ImagePart)
    (remote : GenRequest → Except String GenResponse) :
    Except String SynthesisResult × List GenRequest :=
  match tryBody prompt images remote with
  | (.ok r, reqs) => (.ok r, reqs)
  | (.error _, reqs) => (.error genericFailureMsg, reqs)

/-!
Image intake (the unnamed React component).

A File object is modelled by its binary content (a list of bytes) and its
declared MIME type.  URL.createObjectURL is modelled from the platform: it
mints a fresh object URL on every call, embedded here as a counter
(`nextUrl`) that the state threads; URL.revokeObjectURL is modelled as an
append-only log of released URLs, so that "released exactly once" is the
count of a URL in the log.
-/

/-- Browser File object: binary content (each byte < 256 on real inputs) and
the declared MIME type string. -/
structure JsFile where
  bytes : List Nat
  type : String
deriving Repr, DecidableEq

/-- Entry of the intake collection (interface ImageFile of the component):
the underlying file and its preview object URL. -/
structure ImageFile where
  file : JsFile
  preview : Nat
deriving Repr, DecidableEq

/-- State touched by the intake handlers: the imageFiles React state, the
allocator counter for fresh object URLs, and the log of revoked URLs. -/
structure IntakeState where
  imageFiles : List ImageFile
  nextUrl : Nat
  revoked : List Nat
deriving Repr, DecidableEq

/-- Mapping of `files.map(file => ({file, preview: URL.createObjectURL(file)}))`:
each selected file is paired with a freshly minted object URL, in selection
order, starting from the allocator value `start`. -/
def mintEntries (start : Nat) : List JsFile → List ImageFile
  | [] => []
  | f :: rest => { file := f, preview := start } :: mintEntries (start + 1) rest

/-- Handler handleFileChange, lines 18-27 of the component (the branch where
a file list is present): append the freshly minted entries to the previous
files, preserving selection order. -/
def handleFileChange (files : List JsFile) (s : IntakeState) : IntakeState :=
  { imageFiles := s.imageFiles ++ mintEntries s.nextUrl files
    nextUrl := s.nextUrl + files.length
    revoked := s.revoked }

/-- Message of the TypeError thrown when `newImageFiles[index]` is undefined
and `.preview` is read from it. -/
def typeErrorMsg : String :=
  "TypeError: cannot read preview of undefined"

/-- Handler removeImage, lines 29-35 of the component.  The index is a JS
number; for an in-range index the preview URL at that index is revoked and
the entry spliced out.  For an out-of-range index the read
`newImageFiles[index].preview` throws a TypeError before any revocation or
state update, so the state is returned unchanged together with the error. -/
def removeImage (index : Int) (s : IntakeState) : IntakeState × Option String :=
  if h : 0 ≤ index ∧ index < (s.imageFiles.length : Int) then
    have hi : index.toNat < s.imageFiles.length := by omega
    ({ imageFiles := s.imageFiles.eraseIdx index.toNat
       nextUrl := s.nextUrl
       revoked := s.revoked ++ [(s.imageFiles[index.toNat]).preview] }, none)
  else
    (s, some typeErrorMsg)

/-- Handler clearAllImages, lines 37-40 of the component: revoke every
preview URL in order, then empty the collection. -/
def clearAllImages (s : IntakeState) : IntakeState :=
  { imageFiles := []
    nextUrl := s.nextUrl
    revoked := s.revoked ++ s.imageFiles.map (fun e => e.preview) }

/-- Validation guard of handleSubmit, lines 56-60 of the component: the
submission is blocked (an error message is set and the handler returns
without calling synthesizeImage) when the collection is empty or the
trimmed prompt is empty. -/
def handleSubmitBlocks (imageFiles : List ImageFile) (prompt : String) : Bool :=
  imageFiles.length == 0 || !(truthyStr (some prompt.trim))

/-!
FileReader.readAsDataURL is a platform API, modelled from its standard
semantics: it yields the string `data:<type>;base64,<standard base64 of the
bytes>`.  The base64 alphabet and the 3-bytes-to-4-chars grouping with `=`
padding are the RFC 4648 standard encoding the spec calls "the standard
base64-style transport encoding".  `decodeB64` is the mathematical inverse
used to state the round-trip claim.
-/

/-- Character `n` of the standard base64 alphabet. -/
def b64Char (n : Nat) : Char :=
  "ABCDEFGHIJKLMNOPQRSTUVWXYZabcdefghijklmnopqrstuvwxyz0123456789+/".toList.getD n 'A'

/-- Index of a character in the standard base64 alphabet (64 when absent). -/
def b64Index (c : Char) : Nat :=
  "ABCDEFGHIJKLMNOPQRSTUVWXYZabcdefghijklmnopqrstuvwxyz0123456789+/".toList.indexOf c

/-- Standard base64 encoding of a byte list: groups of three bytes become
four alphabet characters; a final group of one or two bytes is padded with
`=`. -/
def encodeB64 : List Nat → List Char
  | [] => []
  | [a] => [b64Char (a / 4), b64Char (a % 4 * 16), '=', '=']
  | [a, b] => [b64Char (a / 4), b64Char (a % 4 * 16 + b / 16), b64Char (b % 16 * 4), '=']
  | a :: b :: c :: rest =>
      b64Char (a / 4) :: b64Char (a % 4 * 16 + b / 16) ::
      b64Char (b % 16 * 4 + c / 64) :: b64Char (c % 64) :: encodeB64 rest

/-- Standard base64 decoding, the inverse of `encodeB64`: four characters
yield three bytes, or fewer when `=` padding is present. -/
def decodeB64 : List Char → List Nat
  | c1 :: c2 :: c3 :: c4 :: rest =>
      if c3 = '=' then
        [b64Index c1 * 4 + b64Index c2 / 16]
      else if c4 = '=' then
        [b64Index c1 * 4 + b64Index c2 / 16, b64Index c2 % 16 * 16 + b64Index c3 / 4]
      else
        (b64Index c1 * 4 + b64Index c2 / 16) ::
        (b64Index c2 % 16 * 16 + b64Index c3 / 4) ::
        (b64Index c3 % 4 * 64 + b64Index c4) :: decodeB64 rest
  | _ => []

/-- Platform model of FileReader.readAsDataURL: the reader result is the
data URL `data:<declared type>;base64,<base64 of the content>`. -/
def readAsDataURL (f : JsFile) : String :=
  "data:" ++ f.type ++ ";base64," ++ String.mk (encodeB64 f.bytes)

/-- The JS `String.prototype.split` on a single separator character: the
list of maximal separator-free segments, in order. -/
def splitChar (sep : Char) : List Char → List (List Char)
  | [] => [[]]
  | c :: rest =>
      match splitChar sep rest with
      | [] => [[c]]
      | g :: gs => if c = sep then [] :: g :: gs else (c :: g) :: gs

/-- Function fileToBase64, lines 42-54 of the component: read the file as a
data URL and take `result.split(',')[1]`, the segment after the first comma
(JS yields `undefined` for a missing element; the data URL always has a
comma, so the segment exists and we default to the empty string). -/
def fileToBase64 (f : JsFile) : String :=
  String.mk ((splitChar ',' (readAsDataURL f).toList).getD 1 [])

/-- Per-file mapping inside handleSubmit, lines 68-74 of the component: the
encoded payload from fileToBase64 paired with the declared type of the
file. -/
def encodeEntry (f : JsFile) : ImagePart :=
  { mimeType := f.type, data := fileToBase64 f }

/-!
Helper predicates and functions describing the parsing loop.
-/

/-- Test whether a response part takes the imageUrl branch of the loop:
its inlineData is present with truthy data (`part.inlineData &&
part.inlineData.data`). -/
def imageSetter (p : RespPart) : Bool :=
  match p.inlineData with
  | some i => truthyStr i.data
  | none => false

/-- Test whether a response part takes the text branch of the loop: it is
not an image setter and its text is truthy. -/
def textSetter (p : RespPart) : Bool :=
  !(imageSetter p) && truthyStr p.text

/-- InlineData object of the last image-setting part of a list, if any. -/
def lastInlineImage : List RespPart → Option RespInlineData
  | [] => none
  | p :: rest =>
      match lastInlineImage rest with
      | some i => some i
      | none => if imageSetter p then p.inlineData else none

/-- Text value of the last text-setting part of a list, if any. -/
def lastTextVal : List RespPart → Option String
  | [] => none
  | p :: rest =>
      match lastTextVal rest with
      | some t => some t
      | none => if textSetter p then p.text else none

/-- The imageUrl accumulated by the parsing loop over a parts list is the
data URL of the last image-setting part, or the incoming accumulator when no
part sets an image. -/
theorem foldl_stepPart_imageUrl (parts : List RespPart) (acc : SynthesisResult) :
    (parts.foldl stepPart acc).imageUrl =
      (match lastInlineImage parts with
       | some i => some (dataUrlOf i)
       | none => acc.imageUrl) := by
  induction parts generalizing acc with
  | nil => rfl
  | cons p rest ih =>
    rw [List.foldl_cons, ih]
    cases hr : lastInlineImage rest with
    | some i => simp [lastInlineImage, hr]
    | none =>
      simp only [lastInlineImage, hr]
      unfold stepPart imageSetter
      cases hp : p.inlineData with
      | some i =>
        by_cases hd : truthyStr i.data
        · simp [hp, hd]
        · by_cases htx : truthyStr p.text <;> simp [hp, hd, htx]
      | none =>
        by_cases htx : truthyStr p.text <;> simp [hp, htx]

/-- The text accumulated by the parsing loop over a parts list is the text
of the last text-setting part, or the incoming accumulator when no part
sets text. -/
theorem foldl_stepPart_text (parts : List RespPart) (acc : SynthesisResult) :
    (parts.foldl stepPart acc).text =
      (match lastTextVal parts with
       | some t => some t
       | none => acc.text) := by
  induction parts generalizing acc with
  | nil => rfl
  | cons p rest ih =>
    rw [List.foldl_cons, ih]
    cases hr : lastTextVal rest with
    | some t => simp [lastTextVal, hr]
    | none =>
      simp only [lastTextVal, hr]
      unfold stepPart textSetter imageSetter
      cases hp : p.inlineData with
      | some i =>
        by_cases hd : truthyStr i.data
        · simp [hp, hd]
        · by_cases htx : truthyStr p.text
          · cases hpt : p.text with
            | none => simp [truthyStr, hpt] at htx
            | some s => rw [hpt] at htx; simp [hp, hd, htx, hpt]
          · simp [hp, hd, htx]
      | none =>
        by_cases htx : truthyStr p.text
        · cases hpt : p.text with
          | none => simp [truthyStr, hpt] at htx
          | some s => rw [hpt] at htx; simp [hp, htx, hpt]
        · simp [hp, htx]

/-- Example response falsifying claim C1: the first candidate carries two
inline-data parts with distinct payloads. -/
def respC1 : GenResponse :=
  ⟨[⟨⟨[⟨some ⟨some "image/png", some "AAAA"⟩, none⟩,
       ⟨some ⟨some "image/jpeg", some "BBBB"⟩, none⟩]⟩⟩]⟩

/-- Claim C1 is false on the code: with two inline-data parts in the first
candidate, synthesizeImage returns the data URL of the second part, not the
first — later parts of the same kind do overwrite earlier ones. -/
theorem c1_counterexample :
    (synthesizeImage "a prompt" [⟨"image/png", "QQ=="⟩] (fun _ => .ok respC1)).1
      = .ok ⟨some "data:image/jpeg;base64,BBBB", none⟩
    ∧ (some "data:image/jpeg;base64,BBBB" : Option String)
        ≠ some "data:image/png;base64,AAAA" :=
  ⟨rfl, by decide⟩

/-- C1 (amended): extraction is last-wins.  For a response with at least one
candidate, the returned imageUrl is the data URL
`data:<mimeType>;base64,<payload>` of the LAST part of the first candidate
carrying non-empty inline binary data (none when there is no such part), and
the returned text is the text of the LAST part carrying truthy text among
the parts without non-empty inline data; earlier parts of the same kind are
overwritten. -/
theorem c1_last_wins (resp : GenResponse) (c : Candidate) (cs : List Candidate)
    (h : resp.candidates = c :: cs) :
    (parseResponse resp).imageUrl = (lastInlineImage c.content.parts).map dataUrlOf
    ∧ (parseResponse resp).text = lastTextVal c.content.parts := by
  unfold parseResponse
  rw [h]
  constructor
  · rw [foldl_stepPart_imageUrl]
    cases lastInlineImage c.content.parts <;> rfl
  · rw [foldl_stepPart_text]
    cases lastTextVal c.content.parts <;> rfl

/-- Witness for the amended C1 at a concrete one-candidate response. -/
theorem c1_last_wins_witness :
    (parseResponse ⟨[⟨⟨[⟨none, some "hello"⟩]⟩⟩]⟩).imageUrl
        = (lastInlineImage [⟨none, some "hello"⟩]).map dataUrlOf
    ∧ (parseResponse ⟨[⟨⟨[⟨none, some "hello"⟩]⟩⟩]⟩).text
        = lastTextVal [⟨none, some "hello"⟩] :=
  c1_last_wins ⟨[⟨⟨[⟨none, some "hello"⟩]⟩⟩]⟩ ⟨⟨[⟨none, some "hello"⟩]⟩⟩ [] rfl

/-- Erasure of the text field of every image-setting part of a response. -/
def stripImagePartText (p : RespPart) : RespPart :=
  if imageSetter p then { p with text := none } else p

/-- Application of stripImagePartText to every part of every candidate. -/
def stripResponse (resp : GenResponse) : GenResponse :=
  ⟨resp.candidates.map (fun c => ⟨⟨c.content.parts.map stripImagePartText⟩⟩)⟩

/-- One loop step is blind to the text field of an image-setting part. -/
theorem stepPart_strip (acc : SynthesisResult) (p : RespPart) :
    stepPart acc (stripImagePartText p) = stepPart acc p := by
  unfold stripImagePartText
  by_cases h : imageSetter p
  · rw [if_pos h]
    unfold imageSetter at h
    unfold stepPart
    cases hp : p.inlineData with
    | some i => simp only [hp] at h ⊢; rw [if_pos h, if_pos h]
    | none => simp [hp] at h
  · rw [if_neg h]

/-- The whole parsing loop is blind to the text fields of image-setting
parts. -/
theorem foldl_stepPart_strip (parts : List RespPart) (acc : SynthesisResult) :
    parts.foldl (fun a p => stepPart a (stripImagePartText p)) acc
      = parts.foldl stepPart acc := by
  induction parts generalizing acc with
  | nil => rfl
  | cons p rest ih => rw [List.foldl_cons, List.foldl_cons, stepPart_strip, ih]

/-- C10: the text field of a part that carries non-empty inline binary data
never contributes to the result — parsing a response is unchanged when the
text of every such part is erased, so only parts without usable inline data
can set the text field. -/
theorem c10_inline_text_ignored (resp : GenResponse) :
    parseResponse (stripResponse resp) = parseResponse resp := by
  unfold stripResponse parseResponse
  cases resp.candidates with
  | nil => rfl
  | cons c cs =>
    simp only [List.map_cons]
    rw [List.foldl_map]
    exact foldl_stepPart_strip c.content.parts ⟨none, none⟩

/-- C2: the two failure modes are NOT distinguishable by the caller.  The
empty-response Error is thrown inside the try block, so the catch block
catches it exactly like a transport exception and rethrows the same generic
message; the distinct empty-response message exists internally (and is
logged) but never reaches the caller.  Evaluated at a concrete transport
exception and a concrete zero-candidate response, both rejections carry the
identical generic message. -/
theorem c2_same_rejection_message :
    (synthesizeImage "a cat" [⟨"image/png", "QUJD"⟩]
        (fun _ => .error "network down")).1 = .error genericFailureMsg
    ∧ (synthesizeImage "a cat" [⟨"image/png", "QUJD"⟩]
        (fun _ => .ok ⟨[]⟩)).1 = .error genericFailureMsg
    ∧ (tryBody "a cat" [⟨"image/png", "QUJD"⟩]
        (fun _ => .ok ⟨[]⟩)).1 = .error emptyResponseMsg
    ∧ emptyResponseMsg ≠ genericFailureMsg :=
  ⟨rfl, rfl, rfl, by decide⟩

/-- Example response used to falsify claim C3: the remote endpoint answers
with one inline-data part. -/
def respC3 : GenResponse :=
  ⟨[⟨⟨[⟨some ⟨some "image/png", some "QUJD"⟩, none⟩]⟩⟩]⟩

/-- Claim C3 is false on the code: invoked with a blank prompt and an empty
image list, synthesizeImage still issues the network request — and even
resolves successfully when the remote returns content — instead of
rejecting before any call. -/
theorem c3_counterexample :
    (synthesizeImage "" [] (fun _ => .ok respC3)).2 = [buildRequest "" []]
    ∧ (synthesizeImage "" [] (fun _ => .ok respC3)).1
        = .ok ⟨some "data:image/png;base64,QUJD", none⟩ :=
  ⟨rfl, rfl⟩

/-- C3 (amended): synthesizeImage performs no input validation of its own —
for every input, blank or not, it issues exactly one network request; the
validation that blocks a blank submission lives in the handleSubmit guard of
the UI component, which returns without calling synthesizeImage whenever the
image collection is empty or the trimmed prompt is blank. -/
theorem c3_no_validation :
    (∀ (prompt : String) (images : List ImagePart)
        (remote : GenRequest → Except String GenResponse),
        (synthesizeImage prompt images remote).2 = [buildRequest prompt images])
    ∧ (∀ (files : List ImageFile) (prompt : String),
        files = [] ∨ prompt.trim = "" → handleSubmitBlocks files prompt = true) := by
  constructor
  · intro prompt images remote
    unfold synthesizeImage tryBody
    cases h : remote (buildRequest prompt images) with
    | error e => simp [h]
    | ok resp =>
      simp only [h]
      by_cases hif : (falsyOpt (parseResponse resp).imageUrl
          && falsyOpt (parseResponse resp).text) = true
      · rw [if_pos hif]
      · rw [if_neg hif]
  · intro files prompt h
    unfold handleSubmitBlocks truthyStr
    rcases h with h | h
    · subst h; simp
    · simp [h]

/-- Witness for the amended C3: a blank-prompt call still issues its single
request, and the UI guard blocks an empty collection. -/
theorem c3_no_validation_witness :
    (synthesizeImage "x" [] (fun _ => .error "boom")).2 = [buildRequest "x" []]
    ∧ handleSubmitBlocks [] "x" = true :=
  ⟨c3_no_validation.1 "x" [] (fun _ => .error "boom"),
   c3_no_validation.2 [] "x" (Or.inl rfl)⟩

/-- Test whether a response part is usable by the parsing loop: it either
sets the image (truthy inline data) or would set text via the else branch. -/
def usablePart (p : RespPart) : Bool :=
  imageSetter p || truthyStr p.text

/-- A list without image-setting parts accumulates no inline image. -/
theorem lastInlineImage_eq_none (parts : List RespPart)
    (h : ∀ p ∈ parts, usablePart p = false) : lastInlineImage parts = none := by
  induction parts with
  | nil => rfl
  | cons p rest ih =>
    have hp : usablePart p = false := h p (by simp)
    have himg : imageSetter p = false := by
      unfold usablePart at hp
      exact (Bool.or_eq_false_iff.mp hp).1
    unfold lastInlineImage
    rw [ih (fun q hq => h q (by simp [hq]))]
    simp [himg]

/-- A list without text-setting parts accumulates no text. -/
theorem lastTextVal_eq_none (parts : List RespPart)
    (h : ∀ p ∈ parts, usablePart p = false) : lastTextVal parts = none := by
  induction parts with
  | nil => rfl
  | cons p rest ih =>
    have hp : usablePart p = false := h p (by simp)
    have htx : truthyStr p.text = false := by
      unfold usablePart at hp
      exact (Bool.or_eq_false_iff.mp hp).2
    unfold lastTextVal
    rw [ih (fun q hq => h q (by simp [hq]))]
    simp [textSetter, htx]

/-- A truthy optional string is not none. -/
theorem truthyStr_ne_none (o : Option String) (h : truthyStr o = true) : o ≠ none := by
  cases o with
  | none => simp [truthyStr] at h
  | some s => simp

/-- C4: synthesizeImage never resolves with both result fields unset — every
successfully returned SynthesisResult has imageUrl or text populated — and
for a response with zero candidates or a first candidate with no usable
parts it rejects (the rejection originating in the empty-response check of
the try body) rather than resolving or crashing. -/
theorem c4_no_empty_success :
    (∀ (prompt : String) (images : List ImagePart)
        (remote : GenRequest → Except String GenResponse) (r : SynthesisResult),
        (synthesizeImage prompt images remote).1 = .ok r →
        r.imageUrl ≠ none ∨ r.text ≠ none)
    ∧ (∀ (prompt : String) (images : List ImagePart)
        (remote : GenRequest → Except String GenResponse) (resp : GenResponse),
        remote (buildRequest prompt images) = .ok resp →
        (resp.candidates = [] ∨
          ∃ c cs, resp.candidates = c :: cs ∧ ∀ p ∈ c.content.parts, usablePart p = false) →
        (tryBody prompt images remote).1 = .error emptyResponseMsg
        ∧ (synthesizeImage prompt images remote).1 = .error genericFailureMsg) := by
  constructor
  · intro prompt images remote r hr
    unfold synthesizeImage tryBody at hr
    cases hrem : remote (buildRequest prompt images) with
    | error e => rw [hrem] at hr; simp at hr
    | ok resp =>
      simp only [hrem] at hr
      by_cases hif : (falsyOpt (parseResponse resp).imageUrl
          && falsyOpt (parseResponse resp).text) = true
      · rw [if_pos hif] at hr
        simp at hr
      · rw [if_neg hif] at hr
        simp only [Except.ok.injEq] at hr
        have hb : ¬(falsyOpt (parseResponse resp).imageUrl = true
            ∧ falsyOpt (parseResponse resp).text = true) := by
          intro hcontra
          exact hif (by simp [hcontra.1, hcontra.2])
        rcases not_and_or.mp hb with hfi | hft
        · left
          rw [← hr]
          exact truthyStr_ne_none _ (by simpa [falsyOpt] using hfi)
        · right
          rw [← hr]
          exact truthyStr_ne_none _ (by simpa [falsyOpt] using hft)
  · intro prompt images remote resp hrem hempty
    have hparse : parseResponse resp = ⟨none, none⟩ := by
      rcases hempty with h0 | ⟨c, cs, hc, hall⟩
      · unfold parseResponse; rw [h0]
      · unfold parseResponse
        rw [hc]
        have h1 := foldl_stepPart_imageUrl c.content.parts ⟨none, none⟩
        have h2 := foldl_stepPart_text c.content.parts ⟨none, none⟩
        rw [lastInlineImage_eq_none c.content.parts hall] at h1
        rw [lastTextVal_eq_none c.content.parts hall] at h2
        cases hfold : c.content.parts.foldl stepPart ⟨none, none⟩
        rw [hfold] at h1 h2
        simp_all
    constructor
    · simp [tryBody, hrem, hparse, falsyOpt, truthyStr]
    · simp [synthesizeImage, tryBody, hrem, hparse, falsyOpt, truthyStr]

/-- Witness for C4: the populated-field conclusion at a concrete successful
call, and the rejection at a concrete zero-candidate response. -/
theorem c4_no_empty_success_witness :
    ((⟨some "data:image/png;base64,QUJD", none⟩ : SynthesisResult).imageUrl ≠ none
      ∨ (⟨some "data:image/png;base64,QUJD", none⟩ : SynthesisResult).text ≠ none)
    ∧ (tryBody "p" [⟨"image/png", "AA"⟩] (fun _ => .ok ⟨[]⟩)).1 = .error emptyResponseMsg
    ∧ (synthesizeImage "p" [⟨"image/png", "AA"⟩] (fun _ => .ok ⟨[]⟩)).1
        = .error genericFailureMsg := by
  refine ⟨?_, ?_⟩
  · exact c4_no_empty_success.1 "p" [⟨"image/png", "AA"⟩]
      (fun _ => .ok ⟨[⟨⟨[⟨some ⟨some "image/png", some "QUJD"⟩, none⟩]⟩⟩]⟩)
      ⟨some "data:image/png;base64,QUJD", none⟩ rfl
  · exact c4_no_empty_success.2 "p" [⟨"image/png", "AA"⟩] (fun _ => .ok ⟨[]⟩) ⟨[]⟩
      rfl (Or.inl rfl)

/-- C5: the request payload consists of exactly one inline-data part per
input image, carrying that image MIME type and payload in input order,
followed by exactly one text part holding the prompt verbatim. -/
theorem c5_request_shape (prompt : String) (images : List ImagePart) :
    (buildRequest prompt images).parts.length = images.length + 1
    ∧ (∀ i, i < images.length →
        (buildRequest prompt images).parts[i]?
          = images[i]?.map (fun image => ReqPart.inlineData image.mimeType image.data))
    ∧ (buildRequest prompt images).parts[images.length]? = some (ReqPart.text prompt) := by
  refine ⟨by simp [buildRequest], ?_, ?_⟩
  · intro i hi
    unfold buildRequest
    simp only
    rw [List.getElem?_append_left (by simpa using hi)]
    exact List.getElem?_map _ images i
  · unfold buildRequest
    simp only
    rw [List.getElem?_append_right (by simp)]
    simp

/-- Witness for C5 at a concrete one-image request. -/
theorem c5_request_shape_witness :
    (buildRequest "p" [⟨"image/png", "AA"⟩]).parts.length = 2
    ∧ (buildRequest "p" [⟨"image/png", "AA"⟩]).parts[0]?
        = some (ReqPart.inlineData "image/png" "AA")
    ∧ (buildRequest "p" [⟨"image/png", "AA"⟩]).parts[1]? = some (ReqPart.text "p") := by
  obtain ⟨h1, h2, h3⟩ := c5_request_shape "p" [⟨"image/png", "AA"⟩]
  exact ⟨h1, by simpa using h2 0 (by decide), h3⟩

/-!
Intake claims C7, C8, C9.
-/

/-- Entries strictly before the erased index are untouched. -/
theorem getElem?_eraseIdx_of_lt {α : Type} (l : List α) (i j : Nat) (h : j < i) :
    (l.eraseIdx i)[j]? = l[j]? := by
  rw [List.eraseIdx_eq_take_drop_succ]
  by_cases hl : j < l.length
  · rw [List.getElem?_append_left]
    · rw [List.getElem?_take, if_pos h]
    · simp only [List.length_take]
      omega
  · rw [List.getElem?_eq_none (by simp; omega), List.getElem?_eq_none (by omega)]

/-- Entries at or after the erased index come from one position later. -/
theorem getElem?_eraseIdx_of_ge {α : Type} (l : List α) (i j : Nat)
    (hi : i < l.length) (h : i ≤ j) :
    (l.eraseIdx i)[j]? = l[j + 1]? := by
  rw [List.eraseIdx_eq_take_drop_succ]
  rw [List.getElem?_append_right (by simp only [List.length_take]; omega)]
  rw [List.getElem?_drop]
  congr 1
  simp only [List.length_take]
  omega

/-- C7: for a valid index, removeImage releases exactly the preview
reference of entry `i` (the revocation log grows by exactly that one entry),
removes exactly entry `i` (entries before `i` unchanged, entries after `i`
shifted down by one), reports no error, and touches nothing else. -/
theorem c7_remove_in_range (s : IntakeState) (i : Nat) (hi : i < s.imageFiles.length) :
    (removeImage (i : Int) s).2 = none
    ∧ (removeImage (i : Int) s).1.revoked
        = s.revoked ++ [(s.imageFiles[i]).preview]
    ∧ (removeImage (i : Int) s).1.nextUrl = s.nextUrl
    ∧ (removeImage (i : Int) s).1.imageFiles.length = s.imageFiles.length - 1
    ∧ (∀ j, j < i → (removeImage (i : Int) s).1.imageFiles[j]? = s.imageFiles[j]?)
    ∧ (∀ j, i ≤ j → (removeImage (i : Int) s).1.imageFiles[j]? = s.imageFiles[j + 1]?) := by
  have hcond : 0 ≤ (i : Int) ∧ (i : Int) < (s.imageFiles.length : Int) := by
    constructor <;> omega
  have htn : ((i : Int)).toNat = i := by omega
  unfold removeImage
  rw [dif_pos hcond]
  simp only [htn]
  refine ⟨trivial, trivial, trivial, ?_, ?_, ?_⟩
  · rw [List.length_eraseIdx]
    simp [hi]
  · intro j hj
    exact getElem?_eraseIdx_of_lt s.imageFiles i j hj
  · intro j hj
    exact getElem?_eraseIdx_of_ge s.imageFiles i j hi hj

/-- Concrete two-entry intake state for the C7 and C9 witnesses. -/
def sIntakeEx : IntakeState :=
  { imageFiles := [⟨⟨[1], "image/png"⟩, 10⟩, ⟨⟨[2], "image/jpeg"⟩, 11⟩]
    nextUrl := 12
    revoked := [] }

/-- Witness for C7: removing index 0 of a concrete two-entry state revokes
preview 10 only and shifts entry 1 down to index 0. -/
theorem c7_remove_in_range_witness :
    (removeImage ((0 : Nat) : Int) sIntakeEx).2 = none
    ∧ (removeImage ((0 : Nat) : Int) sIntakeEx).1.revoked = [] ++ [10]
    ∧ (removeImage ((0 : Nat) : Int) sIntakeEx).1.imageFiles[0]?
        = sIntakeEx.imageFiles[1]? := by
  obtain ⟨h1, h2, _, _, _, h6⟩ := c7_remove_in_range sIntakeEx 0 (by decide)
  exact ⟨h1, by simpa using h2, h6 0 (Nat.le_refl 0)⟩

/-- C9: for an out-of-range index (negative or at least the length),
removeImage throws before any mutation: no preview reference is released, no
entry is removed, the whole state is unchanged, and the result is the
TypeError raised by reading `.preview` of undefined. -/
theorem c9_remove_out_of_range (s : IntakeState) (index : Int)
    (h : index < 0 ∨ (s.imageFiles.length : Int) ≤ index) :
    removeImage index s = (s, some typeErrorMsg) := by
  unfold removeImage
  rw [dif_neg (by omega)]

/-- Witness for C9 at a concrete state and the out-of-range index 5. -/
theorem c9_remove_out_of_range_witness :
    removeImage 5 sIntakeEx = (sIntakeEx, some typeErrorMsg) :=
  c9_remove_out_of_range sIntakeEx 5 (Or.inr (by decide))

/-- The preview references minted by one add call are the consecutive fresh
URLs starting at the allocator value. -/
theorem mintEntries_map_preview (files : List JsFile) (start : Nat) :
    (mintEntries start files).map (fun e => e.preview) = List.range' start files.length := by
  induction files generalizing start with
  | nil => rfl
  | cons f rest ih =>
    simp only [mintEntries, List.map_cons, List.length_cons, List.range'_succ]
    rw [ih]

/-- C8: after add(files) followed by clear(), the intake collection is empty
and every preview reference minted by the add is released exactly once — it
occurs exactly once in the part of the revocation log written by the
sequence (no reference leaked, none released twice). -/
theorem c8_add_then_clear (s : IntakeState) (files : List JsFile)
    (hwf : ∀ e ∈ s.imageFiles, e.preview < s.nextUrl) (_hne : files ≠ []) :
    (clearAllImages (handleFileChange files s)).imageFiles = []
    ∧ ∀ p ∈ (mintEntries s.nextUrl files).map (fun e => e.preview),
        (((clearAllImages (handleFileChange files s)).revoked).drop
            s.revoked.length).count p = 1 := by
  refine ⟨rfl, ?_⟩
  intro p hp
  have hdrop : ((clearAllImages (handleFileChange files s)).revoked).drop s.revoked.length
      = s.imageFiles.map (fun e => e.preview)
        ++ (mintEntries s.nextUrl files).map (fun e => e.preview) := by
    show (s.revoked ++ (s.imageFiles ++ mintEntries s.nextUrl files).map
        (fun e => e.preview)).drop s.revoked.length = _
    rw [List.drop_left, List.map_append]
  rw [hdrop, List.count_append]
  have hp_range : p ∈ List.range' s.nextUrl files.length := by
    rwa [mintEntries_map_preview] at hp
  have hp_ge : s.nextUrl ≤ p := (List.mem_range'_1.mp hp_range).1
  have hold : (s.imageFiles.map (fun e => e.preview)).count p = 0 := by
    rw [List.count_eq_zero]
    intro hmem
    obtain ⟨e, he, hpe⟩ := List.mem_map.mp hmem
    exact absurd (hpe ▸ hwf e he) (by omega)
  have hnew : ((mintEntries s.nextUrl files).map (fun e => e.preview)).count p = 1 := by
    rw [mintEntries_map_preview]
    exact List.count_eq_one_of_mem (List.nodup_range' _ _) hp_range
  omega

/-- Witness for C8: one file added to an empty intake state with allocator
value 5, then cleared — the collection is empty and preview 5 was released
exactly once. -/
theorem c8_add_then_clear_witness :
    (clearAllImages (handleFileChange [⟨[1], "image/png"⟩] ⟨[], 5, []⟩)).imageFiles = []
    ∧ (((clearAllImages (handleFileChange [⟨[1], "image/png"⟩]
          ⟨[], 5, []⟩)).revoked).drop (([] : List Nat)).length).count 5 = 1 := by
  obtain ⟨h1, h2⟩ := c8_add_then_clear ⟨[], 5, []⟩ [⟨[1], "image/png"⟩]
    (by intro e he; simp at he) (by decide)
  exact ⟨h1, h2 5 (by decide)⟩

/-!
Claim C6: the encoded payload round-trips to the original bytes.
-/

/-- The base64 alphabet decodes its own characters back to their indices. -/
theorem b64Index_b64Char : ∀ n, n < 64 → b64Index (b64Char n) = n := by decide

/-- No alphabet character is the padding character. -/
theorem b64Char_ne_pad : ∀ n, n < 64 → b64Char n ≠ '=' := by decide

/-- No character emitted by the encoder is a comma (alphabet characters by
the table, out-of-range indices by the getD default). -/
theorem b64Char_ne_comma (n : Nat) : b64Char n ≠ ',' := by
  by_cases h : n < 64
  · exact (by decide : ∀ m, m < 64 → b64Char m ≠ ',') n h
  · unfold b64Char
    rw [List.getD_eq_default]
    · decide
    · have hlen :
        ("ABCDEFGHIJKLMNOPQRSTUVWXYZabcdefghijklmnopqrstuvwxyz0123456789+/".toList).length
          = 64 := by decide
      omega

/-- Decoding inverts encoding: for every byte list (each byte < 256), the
standard base64 decoding of the standard base64 encoding gives back the
bytes. -/
theorem decodeB64_encodeB64 : ∀ (bs : List Nat), (∀ b ∈ bs, b < 256) →
    decodeB64 (encodeB64 bs) = bs
  | [] => fun _ => rfl
  | [a] => fun h => by
      have ha : a < 256 := h a (by simp)
      simp only [encodeB64, decodeB64]
      rw [if_pos trivial]
      rw [b64Index_b64Char _ (by omega), b64Index_b64Char _ (by omega)]
      simp only [List.cons.injEq, and_true]
      omega
  | [a, b] => fun h => by
      have ha : a < 256 := h a (by simp)
      have hb : b < 256 := h b (by simp)
      simp only [encodeB64, decodeB64]
      rw [if_neg (b64Char_ne_pad _ (by omega)), if_pos trivial]
      rw [b64Index_b64Char _ (by omega), b64Index_b64Char _ (by omega),
        b64Index_b64Char _ (by omega)]
      simp only [List.cons.injEq, and_true]
      constructor <;> omega
  | a :: b :: c :: d :: rest => fun h => by
      have ha : a < 256 := h a (by simp)
      have hb : b < 256 := h b (by simp)
      have hc : c < 256 := h c (by simp)
      have ih := decodeB64_encodeB64 (d :: rest) (fun x hx => h x (by simp [hx]))
      simp only [encodeB64, decodeB64]
      rw [if_neg (b64Char_ne_pad _ (by omega)), if_neg (b64Char_ne_pad _ (by omega))]
      rw [b64Index_b64Char _ (by omega), b64Index_b64Char _ (by omega),
        b64Index_b64Char _ (by omega), b64Index_b64Char _ (by omega)]
      simp only [List.cons.injEq]
      refine ⟨by omega, by omega, by omega, ?_⟩
      exact ih
  | [a, b, c] => fun h => by
      have ha : a < 256 := h a (by simp)
      have hb : b < 256 := h b (by simp)
      have hc : c < 256 := h c (by simp)
      simp only [encodeB64, decodeB64]
      rw [if_neg (b64Char_ne_pad _ (by omega)), if_neg (b64Char_ne_pad _ (by omega))]
      rw [b64Index_b64Char _ (by omega), b64Index_b64Char _ (by omega),
        b64Index_b64Char _ (by omega), b64Index_b64Char _ (by omega)]
      simp only [List.cons.injEq]
      refine ⟨by omega, by omega, by omega, trivial⟩

/-- The comma never occurs in an encoded payload. -/
theorem comma_not_mem_encodeB64 : ∀ (bs : List Nat), ',' ∉ encodeB64 bs
  | [] => by simp [encodeB64]
  | [a] => by
      intro hmem
      simp only [encodeB64, List.mem_cons, List.not_mem_nil, or_false] at hmem
      rcases hmem with h | h | h | h
      · exact b64Char_ne_comma _ h.symm
      · exact b64Char_ne_comma _ h.symm
      · exact absurd h (by decide)
      · exact absurd h (by decide)
  | [a, b] => by
      intro hmem
      simp only [encodeB64, List.mem_cons, List.not_mem_nil, or_false] at hmem
      rcases hmem with h | h | h | h
      · exact b64Char_ne_comma _ h.symm
      · exact b64Char_ne_comma _ h.symm
      · exact b64Char_ne_comma _ h.symm
      · exact absurd h (by decide)
  | a :: b :: c :: rest => by
      intro hmem
      simp only [encodeB64, List.mem_cons] at hmem
      rcases hmem with h | h | h | h | h
      · exact b64Char_ne_comma _ h.symm
      · exact b64Char_ne_comma _ h.symm
      · exact b64Char_ne_comma _ h.symm
      · exact b64Char_ne_comma _ h.symm
      · exact comma_not_mem_encodeB64 rest h

/-- One-step unfolding of the split function at a cons cell. -/
theorem splitChar_cons (sep c : Char) (rest : List Char) :
    splitChar sep (c :: rest)
      = match splitChar sep rest with
        | [] => [[c]]
        | g :: gs => if c = sep then [] :: g :: gs else (c :: g) :: gs := rfl

/-- The split function never returns an empty list of segments. -/
theorem splitChar_ne_nil (sep : Char) (xs : List Char) : splitChar sep xs ≠ [] := by
  cases xs with
  | nil => simp [splitChar]
  | cons c rest =>
    rw [splitChar_cons]
    cases h : splitChar sep rest with
    | nil => simp
    | cons g gs =>
      by_cases hc : c = sep
      · simp [hc]
      · simp [hc]

/-- Splitting a separator-free list yields that single segment. -/
theorem splitChar_no_sep (sep : Char) (ys : List Char) (h : sep ∉ ys) :
    splitChar sep ys = [ys] := by
  induction ys with
  | nil => rfl
  | cons c rest ih =>
    have hc : c ≠ sep := fun e => h (by simp [e])
    have hr : sep ∉ rest := fun m => h (by simp [m])
    rw [splitChar_cons, ih hr]
    simp [hc]

/-- Splitting around the first separator: a separator-free prefix becomes
the first segment and the rest is split on its own. -/
theorem splitChar_append (sep : Char) (xs ys : List Char) (h : sep ∉ xs) :
    splitChar sep (xs ++ sep :: ys) = xs :: splitChar sep ys := by
  induction xs with
  | nil =>
    rw [List.nil_append, splitChar_cons]
    cases hs : splitChar sep ys with
    | nil => exact absurd hs (splitChar_ne_nil sep ys)
    | cons g gs => simp
  | cons c rest ih =>
    have hc : c ≠ sep := fun e => h (by simp [e])
    have hr : sep ∉ rest := fun m => h (by simp [m])
    rw [List.cons_append, splitChar_cons, ih hr]
    simp [hc]

/-- The character list of the data URL decomposes as a comma-free prefix,
the first comma, and the encoded payload. -/
theorem readAsDataURL_toList (f : JsFile) :
    (readAsDataURL f).toList
      = ("data:".toList ++ f.type.toList ++ ";base64".toList) ++ ',' :: encodeB64 f.bytes := by
  unfold readAsDataURL
  have hsplit : (";base64," : String) = ";base64" ++ "," := rfl
  rw [hsplit]
  simp only [String.toList, String.data_append]
  cases f.type with
  | mk l => simp

/-- C6: the media type paired by the submission pipeline with a file equals
the declared type of the file, and the encoded payload (everything after the
first comma of the reader data URL), when base64-decoded, equals the
original binary content byte for byte.  The hypotheses state the platform
facts that bytes are bytes and a declared MIME type contains no comma. -/
theorem c6_encode_roundtrip (f : JsFile) (hb : ∀ b ∈ f.bytes, b < 256)
    (ht : ',' ∉ f.type.toList) :
    (encodeEntry f).mimeType = f.type
    ∧ decodeB64 ((encodeEntry f).data.toList) = f.bytes := by
  refine ⟨rfl, ?_⟩
  show decodeB64 ((fileToBase64 f).toList) = f.bytes
  unfold fileToBase64
  have hA : ',' ∉ ("data:".toList ++ f.type.toList ++ ";base64".toList) := by
    intro hmem
    rcases List.mem_append.mp hmem with hmem2 | hmem2
    · rcases List.mem_append.mp hmem2 with hmem3 | hmem3
      · exact absurd hmem3 (by decide)
      · exact ht hmem3
    · exact absurd hmem2 (by decide)
  rw [readAsDataURL_toList f,
    splitChar_append ',' _ (encodeB64 f.bytes) hA,
    splitChar_no_sep ',' (encodeB64 f.bytes) (comma_not_mem_encodeB64 f.bytes)]
  simp only [List.getD_cons_succ, List.getD_cons_zero]
  show decodeB64 (encodeB64 f.bytes) = f.bytes
  exact decodeB64_encodeB64 f.bytes hb

/-- Witness for C6 at a concrete three-byte file: the payload decodes back
to the bytes and the media type is preserved. -/
theorem c6_encode_roundtrip_witness :
    (encodeEntry ⟨[77, 97, 110], "image/png"⟩).mimeType = "image/png"
    ∧ decodeB64 ((encodeEntry ⟨[77, 97, 110], "image/png"⟩).data.toList) = [77, 97, 110] := by
  obtain ⟨h1, h2⟩ := c6_encode_roundtrip ⟨[77, 97, 110], "image/png"⟩
    (by decide) (by decide)
  exact ⟨h1, h2⟩
